import Mathlib

/-!
Verification of an MPSC blocking channel implemented in two variants:
channel_v1.rs (liveness inferred from weak reference counts) and
channel_v2.rs (an explicit live-producer counter inside the guarded state).
The embedding is sequential: each operation is a function on an explicit
channel state; a recv call that would wait on the condition variable is
reported as a distinct blocked outcome.
-/

namespace Mpsc

/-- Outcome of one call to Receiver.recv in the sequential model: either a
value is returned, the stream is closed (the Rust None result), or the call
would wait on the condition variable. -/
inductive RecvOutcome (α : Type) where
  | value (v : α)
  | closed
  | blocked
  deriving DecidableEq, Repr

/-- The unit struct SendError declared in channel_v1.rs. -/
inductive SendError where
  | mk
  deriving DecidableEq, Repr

/-- Modelled from the spec, section 4.5 step 3: swap the shared queue
wholesale with the (empty) local buffer, then pop and return the local
buffer front element. Takes the shared queue and the local buffer and
returns the popped value together with the new shared queue and the new
local buffer; none when the swapped-in buffer has no front element. -/
def specSwapPop (queue buffer : List α) : Option (α × List α × List α) :=
  let buffer1 := queue
  let queue1 := buffer
  match buffer1 with
  | v :: rest => some (v, queue1, rest)
  | [] => none

end Mpsc

namespace ChannelV1

/-- State of one channel_v1 channel instance. queue is the mutex-guarded
VecDeque (front at the list head); buffer is the private VecDeque of the
Receiver; senders counts the live Sender handles, each of which holds one
Weak link to Shared, so it equals the weak count of the allocation;
receiverAlive records whether the Receiver (the only strong Arc) exists. -/
structure State (α : Type) where
  queue : List α
  buffer : List α
  senders : Nat
  receiverAlive : Bool
  deriving DecidableEq, Repr

/-- Weak.weak_count as the Drop impl observes it: the number of Weak
pointers to the allocation, or 0 when no strong pointers remain. -/
def weakCount (s : State α) : Nat :=
  if s.receiverAlive then s.senders else 0

/-- Sender.send from channel_v1.rs: upgrade the weak link; when the
Receiver is gone the upgrade fails and the code terminates the process
(modelled as Except.error carrying the message), otherwise push_back the
value on the shared queue, notify, and return Ok(()). -/
def send (s : State α) (v : α) : Except String (Except Mpsc.SendError Unit × State α) :=
  if s.receiverAlive then
    Except.ok (Except.ok (), { s with queue := s.queue ++ [v] })
  else
    Except.error "Sender send value but the Receiver has closed."

/-- Clone for Sender from channel_v1.rs: duplicates the weak link, which
adds one to the weak count; no shared queue mutation. -/
def cloneSender (s : State α) : State α :=
  { s with senders := s.senders + 1 }

/-- Drop for Sender from channel_v1.rs. The body runs before the implicit
decrement performed by dropping the weak field, so the observed weak count
still includes the current handle. When it equals 1, the code upgrades and
notifies the condition variable; the upgrade unwrap would terminate the
process if the Receiver were gone (modelled as none), but a weak count of 1
already implies a strong reference exists. Returns whether the condition
variable was signalled, with the state after the implicit decrement. -/
def dropSender (s : State α) : Option (Bool × State α) :=
  if weakCount s = 1 then
    if s.receiverAlive then
      some (true, { s with senders := s.senders - 1 })
    else
      none
  else
    some (false, { s with senders := s.senders - 1 })

/-- Receiver.recv from channel_v1.rs, one call in the sequential model:
pop the local buffer front if possible; otherwise lock the shared queue and
pop its front, swapping the remainder into the (empty) local buffer; when
the shared queue is empty, return closed if the weak count of live senders
is 0, otherwise wait on the condition variable (the blocked outcome). -/
def recv (s : State α) : Mpsc.RecvOutcome α × State α :=
  match s.buffer with
  | v :: rest => (.value v, { s with buffer := rest })
  | [] =>
    match s.queue with
    | v :: rest =>
      -- the swap puts the old local buffer, empty in this branch, into the queue
      (.value v, { s with buffer := rest, queue := [] })
    | [] =>
      if s.senders = 0 then (.closed, s) else (.blocked, s)

/-- Iterate recv n times, collecting the outcomes in call order. -/
def recvN : State α → Nat → List (Mpsc.RecvOutcome α) × State α
  | s, 0 => ([], s)
  | s, n + 1 =>
    let r := recv s
    let rest := recvN r.2 n
    (r.1 :: rest.1, rest.2)

/-- Send each value of the list in order through the single Sender. -/
def sendAll : State α → List α → Except String (State α)
  | s, [] => Except.ok s
  | s, v :: rest =>
    match send s v with
    | Except.ok r => sendAll r.2 rest
    | Except.error e => Except.error e

/-- Alternate send and recv one value at a time, collecting the recv
outcomes in order. -/
def interleave : State α → List α → Except String (List (Mpsc.RecvOutcome α) × State α)
  | s, [] => Except.ok ([], s)
  | s, v :: rest =>
    match send s v with
    | Except.error e => Except.error e
    | Except.ok r =>
      let rc := recv r.2
      match interleave rc.2 rest with
      | Except.error e => Except.error e
      | Except.ok rs => Except.ok (rc.1 :: rs.1, rs.2)

/-- The state produced by the channel constructor of channel_v1.rs: empty
shared queue, empty local buffer, one Sender (one weak link), Receiver
alive (the strong Arc). -/
def channel (α : Type) : State α :=
  { queue := [], buffer := [], senders := 1, receiverAlive := true }

/-- Observed recv outcomes when values are sent and received alternately,
starting from a fresh channel. -/
def interleaveObs (vs : List Nat) : List (Mpsc.RecvOutcome Nat) :=
  match interleave (channel Nat) vs with
  | Except.ok rs => rs.1
  | Except.error _ => []

/-- Observed recv outcomes when all values are sent first and then drained
with one recv per value, starting from a fresh channel. -/
def batchObs (vs : List Nat) : List (Mpsc.RecvOutcome Nat) :=
  match sendAll (channel Nat) vs with
  | Except.ok s => (recvN s vs.length).1
  | Except.error _ => []

end ChannelV1

namespace ChannelV2

/-- State of one channel_v2 channel instance. queue and txCount are the two
fields of the mutex-guarded Inner struct; buffer is the private VecDeque of
the Receiver; rxAlive records whether the Receiver handle exists (the
Shared allocation itself stays alive through the strong Arc links and is
not modelled separately, since no operation consults it). -/
structure State (α : Type) where
  queue : List α
  txCount : Nat
  buffer : List α
  rxAlive : Bool
  deriving DecidableEq, Repr

/-- Sender.send from channel_v2.rs: lock the inner state unconditionally,
push_back the value, notify, return Ok(()). No liveness check of any kind. -/
def send (t : State α) (v : α) : Except String Unit × State α :=
  (Except.ok (), { t with queue := t.queue ++ [v] })

/-- Clone for Sender from channel_v2.rs: lock, increment tx_count, unlock,
duplicate the strong link. -/
def cloneSender (t : State α) : State α :=
  { t with txCount := t.txCount + 1 }

/-- Drop for Sender from channel_v2.rs: lock, decrement tx_count, and
notify the condition variable exactly when the decremented count is 0.
The decrement is a usize subtraction, so a drop at count 0 is an overflow
(modelled as none); the handle discipline keeps the count positive.
Returns whether the condition variable was signalled. -/
def dropSender (t : State α) : Option (Bool × State α) :=
  if t.txCount = 0 then
    none
  else
    some (decide (t.txCount - 1 = 0), { t with txCount := t.txCount - 1 })

/-- Receiver.recv from channel_v2.rs, one call in the sequential model:
pop the local buffer front if possible; otherwise lock the inner state and
pop the shared queue front, swapping the remainder into the (empty) local
buffer; when the shared queue is empty, return closed if tx_count is 0,
otherwise wait on the condition variable (the blocked outcome). -/
def recv (t : State α) : Mpsc.RecvOutcome α × State α :=
  match t.buffer with
  | v :: rest => (.value v, { t with buffer := rest })
  | [] =>
    match t.queue with
    | v :: rest =>
      -- the swap puts the old local buffer, empty in this branch, into the queue
      (.value v, { t with buffer := rest, queue := [] })
    | [] =>
      if t.txCount = 0 then (.closed, t) else (.blocked, t)

/-- Iterate recv n times, collecting the outcomes in call order. -/
def recvN : State α → Nat → List (Mpsc.RecvOutcome α) × State α
  | t, 0 => ([], t)
  | t, n + 1 =>
    let r := recv t
    let rest := recvN r.2 n
    (r.1 :: rest.1, rest.2)

/-- Send each value of the list in order through the single Sender. -/
def sendAll : State α → List α → State α
  | t, [] => t
  | t, v :: rest => sendAll (send t v).2 rest

/-- Alternate send and recv one value at a time, collecting the recv
outcomes in order. -/
def interleave : State α → List α → List (Mpsc.RecvOutcome α) × State α
  | t, [] => ([], t)
  | t, v :: rest =>
    let rc := recv (send t v).2
    let rs := interleave rc.2 rest
    (rc.1 :: rs.1, rs.2)

/-- The state produced by the channel constructor of channel_v2.rs: empty
shared queue, tx_count initialized to 1 for the returned Sender, empty
local buffer, Receiver alive. -/
def channel (α : Type) : State α :=
  { queue := [], txCount := 1, buffer := [], rxAlive := true }

/-- Observed recv outcomes when values are sent and received alternately,
starting from a fresh channel. -/
def interleaveObs (vs : List Nat) : List (Mpsc.RecvOutcome Nat) :=
  (interleave (channel Nat) vs).1

/-- Observed recv outcomes when all values are sent first and then drained
with one recv per value, starting from a fresh channel. -/
def batchObs (vs : List Nat) : List (Mpsc.RecvOutcome Nat) :=
  (recvN (sendAll (channel Nat) vs) vs.length).1

/-- A handle event on the channel_v2 Sender side. -/
inductive Op where
  | clone
  | drop
  deriving DecidableEq, Repr

/-- One handle event applied to (number of live Sender handles, state).
An event needs a live handle to happen on, so it is refused (none) when no
handle is live; drop also propagates the overflow case of dropSender. -/
def step (st : Nat × State α) (op : Op) : Option (Nat × State α) :=
  match op with
  | .clone => if st.1 = 0 then none else some (st.1 + 1, cloneSender st.2)
  | .drop =>
    if st.1 = 0 then none
    else
      match dropSender st.2 with
      | some r => some (st.1 - 1, r.2)
      | none => none

/-- Run a sequence of handle events from a given (handles, state) pair. -/
def runFrom : Nat × State Nat → List Op → Option (Nat × State Nat)
  | st, [] => some st
  | st, op :: rest =>
    match step st op with
    | some st1 => runFrom st1 rest
    | none => none

/-- Run a sequence of handle events from a fresh channel, which starts with
one live Sender handle and tx_count 1. -/
def run (ops : List Op) : Option (Nat × State Nat) :=
  runFrom (1, channel Nat) ops

end ChannelV2

section StepLemmas

variable {α : Type}

theorem recvV1_buffer_cons (q bs : List α) (x : α) (n : Nat) (r : Bool) :
    ChannelV1.recv ⟨q, x :: bs, n, r⟩ = (Mpsc.RecvOutcome.value x, ⟨q, bs, n, r⟩) := rfl

theorem recvV1_queue_cons (v : α) (rest : List α) (n : Nat) (r : Bool) :
    ChannelV1.recv ⟨v :: rest, [], n, r⟩ = (Mpsc.RecvOutcome.value v, ⟨[], rest, n, r⟩) := rfl

theorem sendV1_alive (q b : List α) (n : Nat) (v : α) :
    ChannelV1.send ⟨q, b, n, true⟩ v = Except.ok (Except.ok (), ⟨q ++ [v], b, n, true⟩) := rfl

theorem recvV2_buffer_cons (q bs : List α) (x : α) (c : Nat) (r : Bool) :
    ChannelV2.recv ⟨q, c, x :: bs, r⟩ = (Mpsc.RecvOutcome.value x, ⟨q, c, bs, r⟩) := rfl

theorem recvV2_queue_cons (v : α) (rest : List α) (c : Nat) (r : Bool) :
    ChannelV2.recv ⟨v :: rest, c, [], r⟩ = (Mpsc.RecvOutcome.value v, ⟨[], c, rest, r⟩) := rfl

theorem sendV2_eq (q b : List α) (c : Nat) (r : Bool) (v : α) :
    ChannelV2.send ⟨q, c, b, r⟩ v = (Except.ok (), ⟨q ++ [v], c, b, r⟩) := rfl

end StepLemmas

section DrainLemmas

variable {α : Type}

theorem recvNV1_drain (vs : List α) :
    ∀ s : ChannelV1.State α, s.buffer ++ s.queue = vs →
      (ChannelV1.recvN s vs.length).1 = vs.map Mpsc.RecvOutcome.value := by
  induction vs with
  | nil => rintro ⟨q, b, n, r⟩ _; simp [ChannelV1.recvN]
  | cons v rest ih =>
    rintro ⟨q, b, n, r⟩ hs
    cases b with
    | nil =>
      obtain rfl : q = v :: rest := by simpa using hs
      simp only [List.length_cons, ChannelV1.recvN, recvV1_queue_cons, List.map_cons]
      exact congrArg (List.cons _) (ih ⟨[], rest, n, r⟩ (by simp))
    | cons x bs =>
      obtain ⟨rfl, hrest⟩ : x = v ∧ bs ++ q = rest := by simpa using hs
      simp only [List.length_cons, ChannelV1.recvN, recvV1_buffer_cons, List.map_cons]
      exact congrArg (List.cons _) (ih ⟨q, bs, n, r⟩ hrest)

theorem recvNV2_drain (vs : List α) :
    ∀ t : ChannelV2.State α, t.buffer ++ t.queue = vs →
      (ChannelV2.recvN t vs.length).1 = vs.map Mpsc.RecvOutcome.value := by
  induction vs with
  | nil => rintro ⟨q, c, b, r⟩ _; simp [ChannelV2.recvN]
  | cons v rest ih =>
    rintro ⟨q, c, b, r⟩ hs
    cases b with
    | nil =>
      obtain rfl : q = v :: rest := by simpa using hs
      simp only [List.length_cons, ChannelV2.recvN, recvV2_queue_cons, List.map_cons]
      exact congrArg (List.cons _) (ih ⟨[], c, rest, r⟩ (by simp))
    | cons x bs =>
      obtain ⟨rfl, hrest⟩ : x = v ∧ bs ++ q = rest := by simpa using hs
      simp only [List.length_cons, ChannelV2.recvN, recvV2_buffer_cons, List.map_cons]
      exact congrArg (List.cons _) (ih ⟨q, c, bs, r⟩ hrest)

theorem sendAllV1_ok (vs : List α) :
    ∀ (q b : List α) (n : Nat),
      ChannelV1.sendAll ⟨q, b, n, true⟩ vs = Except.ok ⟨q ++ vs, b, n, true⟩ := by
  induction vs with
  | nil => intro q b n; simp [ChannelV1.sendAll]
  | cons v rest ih =>
    intro q b n
    simp only [ChannelV1.sendAll, sendV1_alive]
    rw [ih]
    simp

theorem sendAllV2_eq (vs : List α) :
    ∀ (q b : List α) (c : Nat) (r : Bool),
      ChannelV2.sendAll ⟨q, c, b, r⟩ vs = ⟨q ++ vs, c, b, r⟩ := by
  induction vs with
  | nil => intro q b c r; simp [ChannelV2.sendAll]
  | cons v rest ih =>
    intro q b c r
    simp only [ChannelV2.sendAll, sendV2_eq]
    rw [ih]
    simp

theorem interleaveV1_values (vs : List Nat) :
    ∀ n : Nat,
      ChannelV1.interleave (⟨[], [], n, true⟩ : ChannelV1.State Nat) vs
        = Except.ok (vs.map Mpsc.RecvOutcome.value, ⟨[], [], n, true⟩) := by
  induction vs with
  | nil => intro n; simp [ChannelV1.interleave]
  | cons v rest ih =>
    intro n
    simp [ChannelV1.interleave, sendV1_alive, recvV1_queue_cons, ih]

theorem interleaveV2_values (vs : List Nat) :
    ∀ (c : Nat) (r : Bool),
      ChannelV2.interleave (⟨[], c, [], r⟩ : ChannelV2.State Nat) vs
        = (vs.map Mpsc.RecvOutcome.value, ⟨[], c, [], r⟩) := by
  induction vs with
  | nil => intro c r; simp [ChannelV2.interleave]
  | cons v rest ih =>
    intro c r
    simp [ChannelV2.interleave, sendV2_eq, recvV2_queue_cons, ih]

theorem recvNV1_closed {α : Type} (r : Bool) :
    ∀ n : Nat,
      ChannelV1.recvN (⟨[], [], 0, r⟩ : ChannelV1.State α) n
        = (List.replicate n Mpsc.RecvOutcome.closed, ⟨[], [], 0, r⟩) := by
  intro n
  induction n with
  | zero => simp [ChannelV1.recvN]
  | succ k ih => simp [ChannelV1.recvN, ChannelV1.recv, ih, List.replicate_succ]

theorem recvNV2_closed {α : Type} (r : Bool) :
    ∀ n : Nat,
      ChannelV2.recvN (⟨[], 0, [], r⟩ : ChannelV2.State α) n
        = (List.replicate n Mpsc.RecvOutcome.closed, ⟨[], 0, [], r⟩) := by
  intro n
  induction n with
  | zero => simp [ChannelV2.recvN]
  | succ k ih => simp [ChannelV2.recvN, ChannelV2.recv, ih, List.replicate_succ]

theorem runFromV2_invariant (ops : List ChannelV2.Op) :
    ∀ st res : Nat × ChannelV2.State Nat, st.2.txCount = st.1 →
      ChannelV2.runFrom st ops = some res → res.2.txCount = res.1 := by
  induction ops with
  | nil =>
    intro st res hinv h
    simp only [ChannelV2.runFrom, Option.some.injEq] at h
    rw [← h]
    exact hinv
  | cons op rest ih =>
    rintro ⟨h0, q, c, b, r⟩ res hinv hrun
    have hc : c = h0 := hinv
    cases op with
    | clone =>
      by_cases hz : h0 = 0
      · subst hz
        simp [ChannelV2.runFrom, ChannelV2.step] at hrun
      · simp only [ChannelV2.runFrom, ChannelV2.step, if_neg hz] at hrun
        exact ih (h0 + 1, ⟨q, c + 1, b, r⟩) res (by simp [hc]) hrun
    | drop =>
      by_cases hz : h0 = 0
      · subst hz
        simp [ChannelV2.runFrom, ChannelV2.step] at hrun
      · have hcz : ¬ c = 0 := by rw [hc]; exact hz
        simp only [ChannelV2.runFrom, ChannelV2.step, ChannelV2.dropSender,
          if_neg hz, if_neg hcz] at hrun
        exact ih (h0 - 1, ⟨q, c - 1, b, r⟩) res (by simp [hc]) hrun

end DrainLemmas

/-- Claim C1: for every sequence of values sent by a single producer, with no
other producer sending, repeated recv calls return exactly those values in
the order they were sent, in both Variant A (channel_v1) and Variant B
(channel_v2). -/
theorem fifo_single_producer (vs : List Nat) :
    (∃ s : ChannelV1.State Nat,
        ChannelV1.sendAll (ChannelV1.channel Nat) vs = Except.ok s
        ∧ (ChannelV1.recvN s vs.length).1 = vs.map Mpsc.RecvOutcome.value)
    ∧ (ChannelV2.recvN (ChannelV2.sendAll (ChannelV2.channel Nat) vs) vs.length).1
        = vs.map Mpsc.RecvOutcome.value := by
  constructor
  · refine ⟨⟨vs, [], 1, true⟩, ?_, ?_⟩
    · have h := sendAllV1_ok vs [] [] 1
      simpa [ChannelV1.channel] using h
    · exact recvNV1_drain vs ⟨vs, [], 1, true⟩ (by simp)
  · have h := sendAllV2_eq vs [] [] 1 true
    rw [show ChannelV2.channel Nat = ⟨[], 1, [], true⟩ from rfl, h]
    exact recvNV2_drain vs ⟨[] ++ vs, 1, [], true⟩ (by simp)

/-- Claim C2: recv returns the no-value result exactly when the local buffer
is empty, the shared queue is empty, and the producer liveness count (weak
count of senders in Variant A, tx_count in Variant B) is zero; and once that
state holds, every subsequent recv also returns the no-value result without
blocking (the state is unchanged and the outcome is closed, never blocked). -/
theorem recv_none_iff_closed (s : ChannelV1.State Nat) (t : ChannelV2.State Nat) :
    ((ChannelV1.recv s).1 = Mpsc.RecvOutcome.closed
        ↔ (s.buffer = [] ∧ s.queue = [] ∧ s.senders = 0))
    ∧ (s.buffer = [] → s.queue = [] → s.senders = 0 →
        ∀ n, ChannelV1.recvN s n = (List.replicate n Mpsc.RecvOutcome.closed, s))
    ∧ ((ChannelV2.recv t).1 = Mpsc.RecvOutcome.closed
        ↔ (t.buffer = [] ∧ t.queue = [] ∧ t.txCount = 0))
    ∧ (t.buffer = [] → t.queue = [] → t.txCount = 0 →
        ∀ n, ChannelV2.recvN t n = (List.replicate n Mpsc.RecvOutcome.closed, t)) := by
  obtain ⟨q, b, n, r⟩ := s
  obtain ⟨q2, c2, b2, r2⟩ := t
  refine ⟨?_, ?_, ?_, ?_⟩
  · cases b with
    | nil =>
      cases q with
      | nil => by_cases h : n = 0 <;> simp [ChannelV1.recv, h]
      | cons x xs => simp [ChannelV1.recv]
    | cons x bs => simp [ChannelV1.recv]
  · intro hb hq hn
    obtain rfl : b = [] := hb
    obtain rfl : q = [] := hq
    obtain rfl : n = 0 := hn
    exact recvNV1_closed r
  · cases b2 with
    | nil =>
      cases q2 with
      | nil => by_cases h : c2 = 0 <;> simp [ChannelV2.recv, h]
      | cons x xs => simp [ChannelV2.recv]
    | cons x bs => simp [ChannelV2.recv]
  · intro hb hq hc
    obtain rfl : b2 = [] := hb
    obtain rfl : q2 = [] := hq
    obtain rfl : c2 = 0 := hc
    exact recvNV2_closed r2

theorem recv_none_iff_closed_witness :
    ChannelV1.recvN (⟨[], [], 0, true⟩ : ChannelV1.State Nat) 2
        = ([Mpsc.RecvOutcome.closed, Mpsc.RecvOutcome.closed], ⟨[], [], 0, true⟩)
    ∧ ChannelV2.recvN (⟨[], 0, [], true⟩ : ChannelV2.State Nat) 2
        = ([Mpsc.RecvOutcome.closed, Mpsc.RecvOutcome.closed], ⟨[], 0, [], true⟩) := by
  constructor
  · have h := (recv_none_iff_closed ⟨[], [], 0, true⟩ ⟨[], 0, [], true⟩).2.1 rfl rfl rfl 2
    simpa using h
  · have h := (recv_none_iff_closed ⟨[], [], 0, true⟩ ⟨[], 0, [], true⟩).2.2.2 rfl rfl rfl 2
    simpa using h

/-- Claim C3: in Variant A, when the Receiver has been destroyed the send
call surfaces a fatal terminating condition (modelled as the error case of
the outer Except, carrying the termination message, so it neither returns
normally nor returns a SendError value); when the Receiver is alive, send
appends the value to the tail of the shared queue and returns Ok(()). -/
theorem sendV1_consumer_loss (s : ChannelV1.State Nat) (v : Nat) :
    (s.receiverAlive = false →
        ChannelV1.send s v
          = Except.error "Sender send value but the Receiver has closed.")
    ∧ (s.receiverAlive = true →
        ChannelV1.send s v
          = Except.ok (Except.ok (), { s with queue := s.queue ++ [v] })) := by
  constructor <;> intro h <;> simp [ChannelV1.send, h]

theorem sendV1_consumer_loss_witness :
    ChannelV1.send (⟨[], [], 1, false⟩ : ChannelV1.State Nat) 7
        = Except.error "Sender send value but the Receiver has closed."
    ∧ ChannelV1.send (⟨[], [], 1, true⟩ : ChannelV1.State Nat) 7
        = Except.ok (Except.ok (), ⟨[7], [], 1, true⟩) := by
  constructor
  · exact (sendV1_consumer_loss ⟨[], [], 1, false⟩ 7).1 rfl
  · exact (sendV1_consumer_loss ⟨[], [], 1, true⟩ 7).2 rfl

/-- Claim C4: in Variant B, send never fails: for every state, including
states in which the Receiver handle has been destroyed (rxAlive false) and
whatever the producer count, send appends the value to the tail of the
shared queue and returns success; no liveness check is performed on the
send path (the result does not depend on rxAlive). -/
theorem sendV2_always_succeeds (t : ChannelV2.State Nat) (v : Nat) :
    ChannelV2.send t v = (Except.ok (), { t with queue := t.queue ++ [v] }) := rfl

/-- Claim C5: in Variant A, Sender destruction signals the condition
variable if and only if the weak count observed during drop (before the
implicit decrement that destruction itself performs) equals one, which for
a live Receiver means the current handle is the sole remaining producer
handle; the drop itself never terminates the process and decrements the
sender count by one. -/
theorem dropV1_signal_iff (s : ChannelV1.State Nat) :
    ChannelV1.dropSender s
        = some (decide (ChannelV1.weakCount s = 1), { s with senders := s.senders - 1 })
    ∧ (ChannelV1.weakCount s = 1 ↔ (s.receiverAlive = true ∧ s.senders = 1)) := by
  obtain ⟨q, b, n, r⟩ := s
  cases r with
  | false => simp [ChannelV1.dropSender, ChannelV1.weakCount]
  | true => by_cases h : n = 1 <;> simp [ChannelV1.dropSender, ChannelV1.weakCount, h]

/-- Claim C6: in Variant B, Producer clone raises the tx_count stored in
the guarded state by exactly one and leaves the shared queue (and the rest
of the state) unchanged; Producer destruction lowers tx_count by exactly
one, leaves the shared queue unchanged, and signals the condition exactly
when the decremented count reaches zero. -/
theorem cloneV2_dropV2_count (t : ChannelV2.State Nat) (h : 1 ≤ t.txCount) :
    ChannelV2.cloneSender t = { t with txCount := t.txCount + 1 }
    ∧ (ChannelV2.cloneSender t).queue = t.queue
    ∧ ChannelV2.dropSender t
        = some (decide (t.txCount - 1 = 0), { t with txCount := t.txCount - 1 })
    ∧ t.txCount - 1 + 1 = t.txCount := by
  refine ⟨rfl, rfl, ?_, Nat.succ_pred_eq_of_pos h⟩
  have hz : ¬ t.txCount = 0 := Nat.pos_iff_ne_zero.mp h
  simp [ChannelV2.dropSender, hz]

theorem cloneV2_dropV2_count_witness :
    ChannelV2.cloneSender (⟨[5], 2, [], true⟩ : ChannelV2.State Nat) = ⟨[5], 3, [], true⟩
    ∧ ChannelV2.dropSender (⟨[5], 2, [], true⟩ : ChannelV2.State Nat)
        = some (false, ⟨[5], 1, [], true⟩) := by
  have h := cloneV2_dropV2_count ⟨[5], 2, [], true⟩ (by decide)
  exact ⟨h.1, by simpa using h.2.2.1⟩

/-- Claim C7: when recv finds the local buffer empty and the shared queue
non-empty, its behaviour matches the spec reference algorithm (swap the
shared queue wholesale with the empty local buffer, then pop and return the
local buffer front element): the value returned is the front of the shared
queue, afterwards the shared queue is empty and the local buffer holds
exactly the remaining values in their original order, in both variants. -/
theorem recv_refines_swap_then_pop (v : Nat) (q : List Nat)
    (s : ChannelV1.State Nat) (t : ChannelV2.State Nat)
    (hsb : s.buffer = []) (hsq : s.queue = v :: q)
    (htb : t.buffer = []) (htq : t.queue = v :: q) :
    ChannelV1.recv s = (Mpsc.RecvOutcome.value v, { s with buffer := q, queue := [] })
    ∧ ChannelV2.recv t = (Mpsc.RecvOutcome.value v, { t with buffer := q, queue := [] })
    ∧ Mpsc.specSwapPop s.queue s.buffer = some (v, [], q)
    ∧ Mpsc.specSwapPop t.queue t.buffer = some (v, [], q) := by
  obtain ⟨qs, bs, n, r⟩ := s
  obtain ⟨qt, ct, bt, rt⟩ := t
  obtain rfl : bs = [] := hsb
  obtain rfl : qs = v :: q := hsq
  obtain rfl : bt = [] := htb
  obtain rfl : qt = v :: q := htq
  exact ⟨rfl, rfl, rfl, rfl⟩

theorem recv_refines_swap_then_pop_witness :
    ChannelV1.recv (⟨[1, 2, 3], [], 1, true⟩ : ChannelV1.State Nat)
        = (Mpsc.RecvOutcome.value 1, ⟨[], [2, 3], 1, true⟩)
    ∧ Mpsc.specSwapPop [1, 2, 3] ([] : List Nat) = some (1, [], [2, 3])
    ∧ ChannelV2.recv (⟨[1, 2, 3], 1, [], true⟩ : ChannelV2.State Nat)
        = (Mpsc.RecvOutcome.value 1, ⟨[], 1, [2, 3], true⟩) := by
  have h := recv_refines_swap_then_pop 1 [2, 3]
    ⟨[1, 2, 3], [], 1, true⟩ ⟨[1, 2, 3], 1, [], true⟩ rfl rfl rfl rfl
  exact ⟨h.1, h.2.2.1, h.2.1⟩

/-- Claim C8: local-buffer transparency: for every list of values,
alternating send and recv one value at a time from a fresh channel yields
the same sequence of recv outcomes as first sending all values and then
draining with one recv per value, in both variants. -/
theorem local_buffer_transparency (vs : List Nat) :
    ChannelV1.interleaveObs vs = ChannelV1.batchObs vs
    ∧ ChannelV2.interleaveObs vs = ChannelV2.batchObs vs := by
  have h1 : ChannelV1.interleaveObs vs = vs.map Mpsc.RecvOutcome.value := by
    simp only [ChannelV1.interleaveObs, ChannelV1.channel, interleaveV1_values vs 1]
  have h2 : ChannelV1.batchObs vs = vs.map Mpsc.RecvOutcome.value := by
    have hs := sendAllV1_ok vs [] [] 1
    simp only [ChannelV1.batchObs, ChannelV1.channel, hs]
    exact recvNV1_drain vs ⟨[] ++ vs, [], 1, true⟩ (by simp)
  have h3 : ChannelV2.interleaveObs vs = vs.map Mpsc.RecvOutcome.value := by
    simp only [ChannelV2.interleaveObs, ChannelV2.channel, interleaveV2_values vs 1 true]
  have h4 : ChannelV2.batchObs vs = vs.map Mpsc.RecvOutcome.value := by
    have hs := sendAllV2_eq vs [] [] 1 true
    simp only [ChannelV2.batchObs, ChannelV2.channel, hs]
    exact recvNV2_drain vs ⟨[] ++ vs, 1, [], true⟩ (by simp)
  exact ⟨h1.trans h2.symm, h3.trans h4.symm⟩

/-- Claim C9: in Variant B, after every sequence of channel construction,
Producer clone and Producer destruction events, tx_count equals the number
of live Sender handles: it starts at 1 for the handle returned by the
constructor, goes up by one per clone and down by one per destruction, so
under the handle discipline it never goes below zero. -/
theorem txCount_equals_live_handles (ops : List ChannelV2.Op)
    (res : Nat × ChannelV2.State Nat) (h : ChannelV2.run ops = some res) :
    res.2.txCount = res.1 := by
  exact runFromV2_invariant ops (1, ChannelV2.channel Nat) res rfl h

theorem txCount_equals_live_handles_witness :
    ((1 : Nat), (⟨[], 1, [], true⟩ : ChannelV2.State Nat)).2.txCount = 1 :=
  txCount_equals_live_handles [ChannelV2.Op.clone, ChannelV2.Op.drop]
    (1, ⟨[], 1, [], true⟩) (by decide)

/-- Claim C10: in Variant A, although the send signature carries a SendError
result, no call ever returns the Err case: every invocation either
terminates fatally (when the Receiver is gone) or returns Ok(()), so a
SendError value is never observable at the public interface. -/
theorem sendV1_never_returns_err (s : ChannelV1.State Nat) (v : Nat) :
    ChannelV1.send s v = Except.error "Sender send value but the Receiver has closed."
    ∨ ChannelV1.send s v
        = Except.ok (Except.ok (), { s with queue := s.queue ++ [v] }) := by
  cases hr : s.receiverAlive with
  | false => left; simp [ChannelV1.send, hr]
  | true => right; simp [ChannelV1.send, hr]
